import Mathlib

/-!
Verification of the Flipper Zero SDK registry / symbol-table pipeline
(`scripts/fbt_tools/fbt_sdk.py`).

The build-glue file `fbt_sdk.py` is embedded directly: `gen_sdk_data`,
`_check_sdk_is_up2date`, `validate_sdk_cache`, `generate_sdk_symbols`,
`SdkTreeBuilder._generate_sdk_meta`'s include-path filtering, and
`ProcessSdkDepends`.  The registry engine it imports (`fbt.sdk`:
`SdkCache` with its getters, `validate_api`, `is_buildable`, and the
version type) is not part of the visible sources, so those operations are
modelled from the specification; each such definition is marked
`Modelled from the spec:` in its doc comment.

File I/O and SCons nodes are modelled explicitly: functions that write
files return the written text (`Except` distinguishes a raised build error
from a successful write), `validate_sdk_cache` returns the ordered list of
externally visible events it performs, and file existence is an input
predicate.
-/

namespace FbtSdk

/-! ## Byte-wise string ordering

Python sorts symbol names by their byte sequence; `strLe` compares two
strings byte-wise (character by character on their underlying data). -/

/-- Byte-wise comparison of character lists: the empty list is least, and
otherwise the first differing character decides. -/
def leChars : List Char → List Char → Bool
  | [], _ => true
  | _ :: _, [] => false
  | a :: as, b :: bs =>
    if a < b then true
    else if b < a then false
    else leChars as bs

/-- Byte-wise "less or equal" on strings. -/
def strLe (a b : String) : Bool := leChars a.data b.data

/-- Comparison of two values by a string key (the symbol's name). -/
def nameLe {α : Type} (key : α → String) (a b : α) : Prop :=
  strLe (key a) (key b) = true

instance {α : Type} (key : α → String) : DecidableRel (nameLe key) :=
  fun a b => inferInstanceAs (Decidable (strLe (key a) (key b) = true))

/-- Sort a list by a string key (stable insertion sort). -/
def sortByKey {α : Type} (key : α → String) (l : List α) : List α :=
  List.insertionSort (nameLe key) l

/-! ## Data model (shared value types of the registry) -/

/-- An exported function signature: name, return type and parameter list
(the parameter list rendered as one string, exactly as the table generator
consumes it). -/
structure FunctionDef where
  name : String
  returns : String
  params : String
deriving DecidableEq

/-- An exported variable: name and type. -/
structure VariableDef where
  name : String
  var_type : String
deriving DecidableEq

/-- A header exposed by the SDK, identified by its (relative) path. -/
structure HeaderDef where
  name : String
deriving DecidableEq

/-- Modelled from the spec: `Version` is a two-component `(major, minor)`
value. -/
structure SdkVersion where
  major : Nat
  minor : Nat
deriving DecidableEq

/-- Modelled from the spec: `Version.as_int` encodes `(major, minor)` as
`major * K + minor` for a fixed base `K`; the base is left open in the
visible material and is fixed here to `2 ^ 16`.  No result below depends
on the choice of `K`. -/
def SdkVersion.as_int (v : SdkVersion) : Nat :=
  v.major * 65536 + v.minor

/-- Strict ordering of versions, lexicographic on `(major, minor)`. -/
def SdkVersion.lt (a b : SdkVersion) : Bool :=
  decide (a.major < b.major) ||
    (decide (a.major = b.major) && decide (a.minor < b.minor))

/-- A snapshot ("API"): the exported functions, variables and headers
extracted at one point in time.  The lists carry no meaningful order
(the spec's snapshot is order-insensitive); `variables_` carries a
trailing underscore because `variables` is reserved in Lean. -/
structure Snapshot where
  functions : List FunctionDef
  variables_ : List VariableDef
  headers : List HeaderDef
deriving DecidableEq

/-- Modelled from the spec: the persisted registry cache owns the
last-known snapshot, the current version, the version at the last
finalized state (what an out-of-band bump is measured against), and the
finalized flag. -/
structure SdkCache where
  snapshot : Snapshot
  version : SdkVersion
  last_finalized : SdkVersion
  finalized : Bool
deriving DecidableEq

/-! ## Registry-cache operations (missing from the visible sources,
modelled from the specification) -/

/-- Modelled from the spec: `SdkCache.get_functions` yields the cached
function symbols in the canonical order, sorted byte-wise by name. -/
def SdkCache.get_functions (c : SdkCache) : List FunctionDef :=
  sortByKey FunctionDef.name c.snapshot.functions

/-- Modelled from the spec: `SdkCache.get_variables` yields the cached
variable symbols in the canonical order, sorted byte-wise by name. -/
def SdkCache.get_variables (c : SdkCache) : List VariableDef :=
  sortByKey VariableDef.name c.snapshot.variables_

/-- Modelled from the spec: `SdkCache.get_headers` yields the cached
headers sorted by path for determinism. -/
def SdkCache.get_headers (c : SdkCache) : List HeaderDef :=
  sortByKey HeaderDef.name c.snapshot.headers

/-- Modelled from the spec: a cache is buildable exactly when its
finalized flag is set (the build-blocking gate). -/
def SdkCache.is_buildable (c : SdkCache) : Bool :=
  c.finalized

/-- All symbol names of a snapshot, functions and variables together. -/
def Snapshot.symbolNames (s : Snapshot) : List String :=
  s.functions.map FunctionDef.name ++ s.variables_.map VariableDef.name

/-- The signature a snapshot records under a name: a function's
return/parameter pair or a variable's type. -/
def Snapshot.sigOf (s : Snapshot) (n : String) : Option ((String × String) ⊕ String) :=
  match s.functions.find? (fun f => f.name == n) with
  | some f => some (Sum.inl (f.returns, f.params))
  | none =>
    match s.variables_.find? (fun v => v.name == n) with
    | some v => some (Sum.inr v.var_type)
    | none => none

/-- Names present in the new snapshot but not in the old one. -/
def addedNames (old api : Snapshot) : List String :=
  api.symbolNames.filter fun n => !(old.symbolNames.contains n)

/-- Names present in the old snapshot but not in the new one. -/
def removedNames (old api : Snapshot) : List String :=
  old.symbolNames.filter fun n => !(api.symbolNames.contains n)

/-- Names present in both snapshots whose recorded signature differs. -/
def changedNames (old api : Snapshot) : List String :=
  api.symbolNames.filter fun n =>
    old.symbolNames.contains n && decide (old.sigOf n ≠ api.sigOf n)

/-- Modelled from the spec (§4.2): `validate_api` diffs the extracted
snapshot against the stored one, classifies the change (compatible /
additive / breaking), sets the finalized flag accordingly (additive needs
the version bumped since the last finalized state, breaking needs the
major component bumped), and replaces the stored snapshot with the new
one.  The version itself is never auto-bumped. -/
def SdkCache.validate_api (c : SdkCache) (api : Snapshot) : SdkCache :=
  let a := addedNames c.snapshot api
  let r := removedNames c.snapshot api
  let ch := changedNames c.snapshot api
  let fin : Bool :=
    if a.isEmpty && r.isEmpty && ch.isEmpty then true
    else if r.isEmpty && ch.isEmpty then SdkVersion.lt c.last_finalized c.version
    else decide (c.last_finalized.major < c.version.major)
  { snapshot := api
    version := c.version
    last_finalized := if fin then c.version else c.last_finalized
    finalized := fin }

/-! ## `fbt_sdk.py`: table generation -/

/-- The table entry emitted for a function
(`f"API_METHOD({fun_def.name}, {fun_def.returns}, ({fun_def.params}))"`). -/
def funEntry (fun_def : FunctionDef) : String :=
  "API_METHOD(" ++ fun_def.name ++ ", " ++ fun_def.returns ++ ", (" ++
    fun_def.params ++ "))"

/-- The table entry emitted for a variable
(`f"API_VARIABLE({var_def.name}, {var_def.var_type })"`). -/
def varEntry (var_def : VariableDef) : String :=
  "API_VARIABLE(" ++ var_def.name ++ ", " ++ var_def.var_type ++ ")"

/-- The include line emitted for a header (`f"#include <{h.name}>"`). -/
def inclLine (h : HeaderDef) : String :=
  "#include <" ++ h.name ++ ">"

/-- Python's `sep.join(parts)`. -/
def pyJoin (sep : String) : List String → String
  | [] => ""
  | [a] => a
  | a :: b :: rest => a ++ sep ++ pyJoin sep (b :: rest)

/-- The `api_lines` accumulator of `gen_sdk_data`: one `API_METHOD` line
per function (first loop), then one `API_VARIABLE` line per variable
(second loop). -/
def apiLines (sdk_cache : SdkCache) : List String :=
  sdk_cache.get_functions.map funEntry ++ sdk_cache.get_variables.map varEntry

/-- Embedding of `gen_sdk_data` (fbt_sdk.py:152-176): the include lines,
the `elf_api_version` constant, and the symbol-table literal (opening
line, the api lines joined with `",\n"`, closing line), in that order. -/
def gen_sdk_data (sdk_cache : SdkCache) : List String :=
  sdk_cache.get_headers.map inclLine
    ++ ["const int elf_api_version = " ++ toString sdk_cache.version.as_int ++ ";"]
    ++ ["static constexpr auto elf_api_table = sort(create_array_t<sym_entry>("]
    ++ [pyJoin ",\n" (apiLines sdk_cache)]
    ++ ["));"]

/-- The message of the `UserError` raised by `_check_sdk_is_up2date`
(fbt_sdk.py:181-183). -/
def notFinalizedMsg : String :=
  "SDK version is not finalized, please review changes and re-run operation"

/-- Embedding of `_check_sdk_is_up2date` (fbt_sdk.py:179-183): raises
`UserError` (modelled as `Except.error` with the raised message) exactly
when the cache is not buildable. -/
def check_sdk_is_up2date (sdk_cache : SdkCache) : Except String Unit :=
  if sdk_cache.is_buildable then Except.ok () else Except.error notFinalizedMsg

/-- An externally visible event of a validation run: writing the cache
back to storage, or raising a build-blocking error. -/
inductive SdkEvent where
  | save (c : SdkCache)
  | raiseErr (msg : String)
deriving DecidableEq

/-- Embedding of `validate_sdk_cache` (fbt_sdk.py:186-196) as the ordered
list of externally visible events it performs.  The extraction of the
current snapshot (`SdkCollector`, missing from the visible sources) is
modelled by taking the extracted snapshot as the `api` argument, and the
`SdkCache(target)` load by taking the loaded cache as the `sdk_cache`
argument.  The source calls `sdk_cache.validate_api(...)`, then
`sdk_cache.save()`, then `_check_sdk_is_up2date(sdk_cache)`. -/
def validate_sdk_cache (sdk_cache : SdkCache) (api : Snapshot) : List SdkEvent :=
  let c2 := sdk_cache.validate_api api
  SdkEvent.save c2 ::
    (match check_sdk_is_up2date c2 with
     | Except.ok _ => []
     | Except.error msg => [SdkEvent.raiseErr msg])

/-- Embedding of `generate_sdk_symbols` (fbt_sdk.py:199-205):
`_check_sdk_is_up2date` runs first; only on success is `gen_sdk_data`
evaluated and its lines joined with `"\n"` and written to the target
(`Except.ok` carries the written text; `Except.error` carries the raised
message, and no text is produced). -/
def generate_sdk_symbols (sdk_cache : SdkCache) : Except String String :=
  match check_sdk_is_up2date sdk_cache with
  | Except.error msg => Except.error msg
  | Except.ok _ => Except.ok (pyJoin "\n" (gen_sdk_data sdk_cache))

/-! ## `fbt_sdk.py`: SDK tree metadata (include-path filtering) -/

/-- Python's `needle in hay` prefix test on character lists. -/
def strHasPre : List Char → List Char → Bool
  | [], _ => true
  | _ :: _, [] => false
  | a :: as, b :: bs => a == b && strHasPre as bs

/-- Substring containment on character lists: some suffix of the haystack
starts with the needle. -/
def strHasSub (needle : List Char) : List Char → Bool
  | [] => needle.isEmpty
  | b :: bs => strHasPre needle (b :: bs) || strHasSub needle bs

/-- Python's `needle in hay` substring containment on strings. -/
def pyIn (needle hay : String) : Bool :=
  strHasSub needle.data hay.data

/-- The comma-joined, single-quoted header directory list of
`_generate_sdk_meta` (`", ".join(f"'{dir}'" for dir in self.header_dirs)`);
`"\x27"` is the single-quote character. -/
def joinQuoted (dirs : List String) : String :=
  pyJoin ", " (dirs.map fun d => "\x27" ++ d ++ "\x27")

/-- Embedding of the include-path filtering of
`SdkTreeBuilder._generate_sdk_meta` (fbt_sdk.py:95-114): the filtered
path list starts with the SDK directory name, then holds
`posixpath.join(target_sdk_dir_name, dir)` for every firmware include
directory `dir` (already in its normalized relative form, as the source
computes via `normpath`/`relpath`) whose path occurs — by Python's `in`
substring test — in the quoted, comma-joined header-directory string. -/
def generate_sdk_meta_filtered_paths (target_sdk_dir_name : String)
    (header_dirs : List String) (full_fw_paths : List String) : List String :=
  let sdk_dirs := joinQuoted header_dirs
  target_sdk_dir_name ::
    ((full_fw_paths.filter fun dir => pyIn dir sdk_dirs).map
      fun dir => target_sdk_dir_name ++ "/" ++ dir)

/-! ## `fbt_sdk.py`: dependency-file processing -/

/-- The characters after the first `':'` of a line, or `none` when the
line has no colon (in which case the source's tuple unpacking of
`split(":", 1)` raises). -/
def afterColon : List Char → Option (List Char)
  | [] => none
  | c :: cs => if c = ':' then some cs else afterColon cs

/-- Helper of `pySplit`: walks the characters, accumulating the current
token in reverse. -/
def pySplitChars (acc : List Char) : List Char → List String
  | [] => if acc.isEmpty then [] else [String.mk acc.reverse]
  | c :: cs =>
    if c.isWhitespace then
      if acc.isEmpty then pySplitChars [] cs
      else String.mk acc.reverse :: pySplitChars [] cs
    else pySplitChars (c :: acc) cs

/-- Python's `str.split()`: split on whitespace runs, discarding empty
pieces. -/
def pySplit (s : String) : List String :=
  pySplitChars [] s.data

/-- Embedding of `ProcessSdkDepends` (fbt_sdk.py:18-36).  Input: the
logical lines of the depends file (`none` when opening raises `IOError`),
and the file-existence predicate backing `file.exists()`.  Output: `none`
models an uncaught exception (no first line, no colon in it, or no
dependency tokens for `pop(0)`); otherwise the dependency paths kept
(each wrapped by the source into `env.File(f"#{path}")`, modelled by the
path itself). -/
def ProcessSdkDepends (lines : Option (List String)) (onDisk : String → Bool) :
    Option (List String) :=
  match lines with
  | none => some []
  | some [] => none
  | some (line0 :: _) =>
    match afterColon line0.data with
    | none => none
    | some rest =>
      match pySplit (String.mk rest) with
      | [] => none
      | _ :: toks => some (toks.filter onDisk)

/-! ## Concrete caches and snapshots used in counterexamples and
witnesses -/

/-- A finalized cache holding function `foo` and variable `aaa`. -/
def cacheFooVarAaa : SdkCache :=
  { snapshot :=
      { functions := [{ name := "foo", returns := "int", params := "void" }]
        variables_ := [{ name := "aaa", var_type := "int" }]
        headers := [] }
    version := { major := 1, minor := 3 }
    last_finalized := { major := 1, minor := 3 }
    finalized := true }

/-- A finalized cache holding functions `foo` and `bar` (stored in
unsorted order). -/
def cacheBarFoo : SdkCache :=
  { snapshot :=
      { functions :=
          [{ name := "foo", returns := "int", params := "int" },
           { name := "bar", returns := "void", params := "void" }]
        variables_ := []
        headers := [] }
    version := { major := 1, minor := 3 }
    last_finalized := { major := 1, minor := 3 }
    finalized := true }

/-- A finalized cache whose snapshot holds the single function
`foo(int) -> int`. -/
def cacheFooOnly : SdkCache :=
  { snapshot :=
      { functions := [{ name := "foo", returns := "int", params := "int" }]
        variables_ := []
        headers := [] }
    version := { major := 1, minor := 0 }
    last_finalized := { major := 1, minor := 0 }
    finalized := true }

/-- The empty snapshot. -/
def apiEmpty : Snapshot :=
  { functions := [], variables_ := [], headers := [] }

/-- A snapshot in which `foo`'s signature differs from `cacheFooOnly`'s
record (parameter list changed). -/
def apiFooChanged : Snapshot :=
  { functions := [{ name := "foo", returns := "int", params := "int, int" }]
    variables_ := []
    headers := [] }

/-- Determinism witness, first cache. -/
def cacheDetA : SdkCache :=
  { snapshot :=
      { functions :=
          [{ name := "foo", returns := "int", params := "void" },
           { name := "bar", returns := "void", params := "void" }]
        variables_ := [{ name := "vv", var_type := "int" }]
        headers := [{ name := "a.h" }, { name := "b.h" }] }
    version := { major := 2, minor := 1 }
    last_finalized := { major := 2, minor := 1 }
    finalized := true }

/-- Determinism witness, second cache: the same contents as `cacheDetA`,
listed in a different order. -/
def cacheDetB : SdkCache :=
  { snapshot :=
      { functions :=
          [{ name := "bar", returns := "void", params := "void" },
           { name := "foo", returns := "int", params := "void" }]
        variables_ := [{ name := "vv", var_type := "int" }]
        headers := [{ name := "b.h" }, { name := "a.h" }] }
    version := { major := 2, minor := 1 }
    last_finalized := { major := 2, minor := 1 }
    finalized := true }

/-! ## Helper lemmas: the byte-wise order and sorting -/

theorem leChars_total : ∀ l₁ l₂ : List Char, leChars l₁ l₂ = true ∨ leChars l₂ l₁ = true
  | [], _ => Or.inl rfl
  | _ :: _, [] => Or.inr rfl
  | a :: as, b :: bs => by
    rcases lt_trichotomy a b with h | h | h
    · left; simp [leChars, h]
    · subst h
      rcases leChars_total as bs with ih | ih
      · left; simp [leChars, lt_irrefl, ih]
      · right; simp [leChars, lt_irrefl, ih]
    · right; simp [leChars, h]

theorem leChars_trans : ∀ l₁ l₂ l₃ : List Char, leChars l₁ l₂ = true →
    leChars l₂ l₃ = true → leChars l₁ l₃ = true
  | [], _, _ => fun _ _ => rfl
  | _ :: _, [], _ => by simp [leChars]
  | _ :: _, _ :: _, [] => by simp [leChars]
  | a :: as, b :: bs, c :: cs => by
    intro h₁ h₂
    rcases lt_trichotomy a b with hab | hab | hab
    · rcases lt_trichotomy b c with hbc | hbc | hbc
      · simp [leChars, lt_trans hab hbc]
      · subst hbc; simp [leChars, hab]
      · exfalso; simp [leChars, hbc, lt_asymm hbc] at h₂
    · subst hab
      rcases lt_trichotomy a c with hac | hac | hac
      · simp [leChars, hac]
      · subst hac
        simp only [leChars, lt_irrefl, if_neg (lt_irrefl a)] at h₁ h₂ ⊢
        simp at h₁ h₂ ⊢
        exact leChars_trans as bs cs h₁ h₂
      · exfalso; simp [leChars, hac, lt_asymm hac] at h₂
    · exfalso; simp [leChars, hab, lt_asymm hab] at h₁

theorem leChars_antisymm : ∀ l₁ l₂ : List Char, leChars l₁ l₂ = true →
    leChars l₂ l₁ = true → l₁ = l₂
  | [], [] => fun _ _ => rfl
  | [], _ :: _ => by simp [leChars]
  | _ :: _, [] => by simp [leChars]
  | a :: as, b :: bs => by
    intro h₁ h₂
    rcases lt_trichotomy a b with hab | hab | hab
    · exfalso; simp [leChars, hab, lt_asymm hab] at h₂
    · subst hab
      simp only [leChars, lt_irrefl, if_neg (lt_irrefl a)] at h₁ h₂
      simp at h₁ h₂
      rw [leChars_antisymm as bs h₁ h₂]
    · exfalso; simp [leChars, hab, lt_asymm hab] at h₁

theorem strLe_total (a b : String) : strLe a b = true ∨ strLe b a = true :=
  leChars_total a.data b.data

theorem strLe_trans {a b c : String} (h₁ : strLe a b = true) (h₂ : strLe b c = true) :
    strLe a c = true :=
  leChars_trans a.data b.data c.data h₁ h₂

theorem strLe_antisymm {a b : String} (h₁ : strLe a b = true) (h₂ : strLe b a = true) :
    a = b := by
  cases a; cases b
  exact congrArg String.mk (leChars_antisymm _ _ h₁ h₂)

theorem sortByKey_perm {α : Type} (key : α → String) (l : List α) :
    (sortByKey key l).Perm l :=
  List.perm_insertionSort (nameLe key) l

theorem sortByKey_sorted {α : Type} (key : α → String) (l : List α) :
    (sortByKey key l).Sorted (nameLe key) := by
  haveI : IsTotal α (nameLe key) := ⟨fun a b => strLe_total (key a) (key b)⟩
  haveI : IsTrans α (nameLe key) := ⟨fun _ _ _ h₁ h₂ => strLe_trans h₁ h₂⟩
  exact List.sorted_insertionSort (nameLe key) l

/-- Two lists with the same elements, both sorted by a key that is
injective on them (no duplicate keys), are equal. -/
theorem sorted_perm_key_nodup_eq {α : Type} (key : α → String) :
    ∀ l₁ l₂ : List α, l₁.Perm l₂ → l₁.Sorted (nameLe key) →
      l₂.Sorted (nameLe key) → (l₁.map key).Nodup → l₁ = l₂
  | [], l₂, hp, _, _, _ => (hp.nil_eq).symm ▸ rfl
  | _ :: _, [], hp, _, _, _ => absurd hp (by simp)
  | a :: t₁, b :: t₂, hp, hs₁, hs₂, hn => by
    have hab : a = b := by
      have hbmem : b ∈ a :: t₁ := hp.mem_iff.mpr (List.mem_cons_self b t₂)
      have hamem : a ∈ b :: t₂ := hp.mem_iff.mp (List.mem_cons_self a t₁)
      rcases List.mem_cons.mp hbmem with h | h
      · exact h.symm
      · rcases List.mem_cons.mp hamem with h' | h'
        · exact h'
        · have h₁ : nameLe key a b := List.rel_of_sorted_cons hs₁ b h
          have h₂ : nameLe key b a := List.rel_of_sorted_cons hs₂ a h'
          have hk : key a = key b := strLe_antisymm h₁ h₂
          exfalso
          have hmap : key b ∈ t₁.map key := List.mem_map_of_mem key h
          rw [← hk] at hmap
          exact (List.nodup_cons.mp hn).1 hmap
    subst hab
    have ht : t₁.Perm t₂ := hp.cons_inv
    have := sorted_perm_key_nodup_eq key t₁ t₂ ht hs₁.of_cons hs₂.of_cons
      (List.nodup_cons.mp hn).2
    rw [this]

/-- Sorting by key is invariant under permutation of lists with no
duplicate keys. -/
theorem sortByKey_eq_of_perm {α : Type} (key : α → String) {l₁ l₂ : List α}
    (hp : l₁.Perm l₂) (hn : (l₁.map key).Nodup) :
    sortByKey key l₁ = sortByKey key l₂ := by
  refine sorted_perm_key_nodup_eq key _ _ ?_ (sortByKey_sorted key l₁)
    (sortByKey_sorted key l₂) ?_
  · exact (sortByKey_perm key l₁).trans (hp.trans (sortByKey_perm key l₂).symm)
  · exact (((sortByKey_perm key l₁).map key).nodup_iff).mpr hn

/-! ## Helper lemmas: string concatenation and first characters -/

theorem strData_append (a b : String) : (a ++ b).data = a.data ++ b.data := by
  cases a; cases b; rfl

theorem str_data_inj {a b : String} (h : a.data = b.data) : a = b := by
  cases a; cases b; exact congrArg String.mk h

theorem str_append_left_cancel {a b c : String} (h : a ++ b = a ++ c) : b = c := by
  have hd := congrArg String.data h
  rw [strData_append, strData_append] at hd
  exact str_data_inj (List.append_cancel_left hd)

theorem head?_data_append (a b : String) {c : Char} (h : a.data.head? = some c) :
    (a ++ b).data.head? = some c := by
  rw [strData_append]
  revert h
  cases a.data with
  | nil => intro h; cases h
  | cons x xs => intro h; simpa using h

theorem str_ne_of_head {a b : String} (h : a.data.head? ≠ b.data.head?) : a ≠ b :=
  fun he => h (he ▸ rfl)

theorem funEntry_head (f : FunctionDef) : (funEntry f).data.head? = some 'A' := by
  unfold funEntry
  repeat apply head?_data_append
  rfl

theorem varEntry_head (v : VariableDef) : (varEntry v).data.head? = some 'A' := by
  unfold varEntry
  repeat apply head?_data_append
  rfl

theorem inclLine_head (h : HeaderDef) : (inclLine h).data.head? = some '#' := by
  unfold inclLine
  repeat apply head?_data_append
  rfl

theorem vline_head (n : Nat) :
    ("const int elf_api_version = " ++ toString n ++ ";").data.head? = some 'c' := by
  repeat apply head?_data_append
  rfl

theorem pyJoin_head_all (sep : String) (c : Char) : ∀ l : List String,
    (∀ x ∈ l, x.data.head? = some c) →
    pyJoin sep l = "" ∨ (pyJoin sep l).data.head? = some c
  | [] => fun _ => Or.inl rfl
  | [a] => fun h => Or.inr (h a (by simp))
  | a :: b :: rest => fun h => Or.inr (by
      show (a ++ sep ++ pyJoin sep (b :: rest)).data.head? = some c
      exact head?_data_append _ _ (head?_data_append _ _ (h a (by simp))))

theorem apiLines_head (sdk_cache : SdkCache) :
    ∀ x ∈ apiLines sdk_cache, x.data.head? = some 'A' := by
  intro x hx
  rcases List.mem_append.mp hx with h | h
  · rcases List.mem_map.mp h with ⟨f, _, rfl⟩
    exact funEntry_head f
  · rcases List.mem_map.mp h with ⟨v, _, rfl⟩
    exact varEntry_head v

theorem mem_sortByKey {α : Type} (key : α → String) (l : List α) (a : α) :
    a ∈ sortByKey key l ↔ a ∈ l :=
  (sortByKey_perm key l).mem_iff

/-! ## Helper lemmas: the diff of a snapshot against itself is empty -/

theorem addedNames_self (s : Snapshot) : addedNames s s = [] := by
  apply List.filter_eq_nil_iff.mpr
  intro a ha
  simpa using ha

theorem removedNames_self (s : Snapshot) : removedNames s s = [] := by
  apply List.filter_eq_nil_iff.mpr
  intro a ha
  simpa using ha

theorem changedNames_self (s : Snapshot) : changedNames s s = [] := by
  apply List.filter_eq_nil_iff.mpr
  intro a _
  simp

theorem validate_api_finalized_of_snapshot_eq (c : SdkCache) (api : Snapshot)
    (h : c.snapshot = api) : (c.validate_api api).finalized = true := by
  subst h
  simp [SdkCache.validate_api, addedNames_self, removedNames_self, changedNames_self]

/-! ## Claim theorems -/

/-- C3: table generation (`generate_sdk_symbols`) fails with the
`NotFinalized` error exactly when the cache is not buildable, and succeeds
with the textual emission exactly when it is; the error outcome carries no
emitted text (the finalized check precedes any write). -/
theorem generate_sdk_symbols_gate (sdk_cache : SdkCache) :
    ((∃ t, generate_sdk_symbols sdk_cache = Except.ok t) ↔
        sdk_cache.is_buildable = true)
    ∧ (generate_sdk_symbols sdk_cache = Except.error notFinalizedMsg ↔
        sdk_cache.is_buildable = false) := by
  cases h : sdk_cache.is_buildable <;>
    simp [generate_sdk_symbols, check_sdk_is_up2date, h]

/-- C4: every validation run saves the updated cache, and the save is the
first event of the run — in particular it precedes the `NotFinalized`
error, which is raised exactly when the verdict is not finalized. -/
theorem validate_sdk_cache_always_saves (sdk_cache : SdkCache) (api : Snapshot) :
    (validate_sdk_cache sdk_cache api).head? =
      some (SdkEvent.save (sdk_cache.validate_api api))
    ∧ (SdkEvent.raiseErr notFinalizedMsg ∈ validate_sdk_cache sdk_cache api ↔
        (sdk_cache.validate_api api).finalized = false) := by
  refine ⟨rfl, ?_⟩
  cases h : (sdk_cache.validate_api api).finalized <;>
    simp [validate_sdk_cache, check_sdk_is_up2date, SdkCache.is_buildable, h]

/-- C5 counterexample: `validate_api` is not idempotent.  With stored
snapshot `{foo}`, an input snapshot that removed `foo` and no version
bump, the first run reports not finalized; re-running on the
already-updated cache (whose stored snapshot was replaced by the input)
reports finalized. -/
theorem validate_api_not_idempotent_cex :
    (cacheFooOnly.validate_api apiEmpty).finalized = false
    ∧ ((cacheFooOnly.validate_api apiEmpty).validate_api apiEmpty).finalized = true := by
  exact ⟨by decide, by decide⟩

/-- C5 amended: because `validate_api` replaces the stored snapshot with
its input, the second of two runs with the same input snapshot always
reports finalized; hence the two runs agree exactly when the first one was
already finalized. -/
theorem validate_api_second_run_finalized (c : SdkCache) (api : Snapshot) :
    ((c.validate_api api).validate_api api).finalized = true :=
  validate_api_finalized_of_snapshot_eq (c.validate_api api) api rfl

/-- C7 counterexample: a validation run in which symbol `foo` changed
raises the `NotFinalized` error with the fixed message, which names no
changed symbol — in particular it does not contain `foo`. -/
theorem not_finalized_message_names_no_symbols_cex :
    (cacheFooOnly.validate_api apiFooChanged).finalized = false
    ∧ check_sdk_is_up2date (cacheFooOnly.validate_api apiFooChanged) =
        Except.error notFinalizedMsg
    ∧ pyIn "foo" notFinalizedMsg = false := by
  exact ⟨by decide, rfl, by decide⟩

/-- C7 amended: in the `NotFinalized` state the pipeline raises an error
whose message is the fixed string "SDK version is not finalized, please
review changes and re-run operation", independent of which symbols
changed; the symbol-level detail lives only in the saved cache. -/
theorem not_finalized_message_fixed (sdk_cache : SdkCache) :
    sdk_cache.is_buildable = false ↔
      check_sdk_is_up2date sdk_cache =
        Except.error
          "SDK version is not finalized, please review changes and re-run operation" := by
  cases h : sdk_cache.is_buildable <;>
    simp [check_sdk_is_up2date, h, notFinalizedMsg]

/-- C10 counterexample: when the first dependency token recurs later in
the rule, the returned list does contain the first dependency token.  On
the depends line `"o: a.c a.c"` (with every file existing) the result is
`["a.c"]`, which contains the first token `a.c`. -/
theorem ProcessSdkDepends_first_token_cex :
    ProcessSdkDepends (some ["o: a.c a.c"]) (fun _ => true) = some ["a.c"]
    ∧ "a.c" ∈ ["a.c"] := by
  exact ⟨by decide, by decide⟩

/-- C10 amended: an unreadable depends file yields the empty list; on a
readable file whose call returns, the token at position 0 after the colon
is removed (one positional occurrence, so its value may still appear if
duplicated later), and every returned path satisfies the existence
predicate, drawn from the remaining tokens filtered by it. -/
theorem ProcessSdkDepends_amended_behavior (onDisk : String → Bool)
    (line0 : String) (restLines : List String) (r : List String)
    (h : ProcessSdkDepends (some (line0 :: restLines)) onDisk = some r) :
    ProcessSdkDepends none onDisk = some []
    ∧ ∃ cs t0 toks, afterColon line0.data = some cs
        ∧ pySplit (String.mk cs) = t0 :: toks
        ∧ r = toks.filter onDisk
        ∧ ∀ x ∈ r, onDisk x = true := by
  refine ⟨rfl, ?_⟩
  simp only [ProcessSdkDepends] at h
  split at h
  · exact absurd h (by simp)
  · rename_i cs hc
    split at h
    · exact absurd h (by simp)
    · rename_i t0 toks ht
      have hr : r = toks.filter onDisk := by
        injection h with h'
        exact h'.symm
      refine ⟨cs, t0, toks, hc, ht, hr, ?_⟩
      intro x hx
      rw [hr] at hx
      exact (List.mem_filter.mp hx).2

/-- C10 amended, witness: concrete run on the depends line
`"o: a.c b.h"`. -/
theorem ProcessSdkDepends_amended_behavior_witness :
    ProcessSdkDepends (some ["o: a.c b.h"]) (fun _ => true) = some ["b.h"]
    ∧ (ProcessSdkDepends none (fun _ => true) = some []
        ∧ ∃ cs t0 toks, afterColon ("o: a.c b.h" : String).data = some cs
            ∧ pySplit (String.mk cs) = t0 :: toks
            ∧ ["b.h"] = toks.filter (fun _ => true)
            ∧ ∀ x ∈ (["b.h"] : List String), (fun (_ : String) => true) x = true) :=
  ⟨by decide,
    ProcessSdkDepends_amended_behavior (fun _ => true) "o: a.c b.h" [] ["b.h"] (by decide)⟩

/-- C1 counterexample: the emitted table is not sorted byte-wise by name
across functions and variables together.  In a finalized cache holding
function `foo` and variable `aaa`, the name `aaa` compares strictly below
`foo`, yet `foo`'s entry line precedes `aaa`'s in the emitted text. -/
theorem apiLines_not_name_sorted_across_kinds_cex :
    strLe "aaa" "foo" = true ∧ ("aaa" : String) ≠ "foo"
    ∧ cacheFooVarAaa.is_buildable = true
    ∧ apiLines cacheFooVarAaa =
        ["API_METHOD(foo, int, (void))", "API_VARIABLE(aaa, int)"] :=
  ⟨by decide, by decide, by decide, by decide⟩

/-- C1 amended: the table entries are emitted grouped by kind — all
function entries first, then all variable entries — each group in a
stable order sorted byte-wise by symbol name; in particular, for a cache
holding functions `foo` and `bar`, `bar`'s entry precedes `foo`'s. -/
theorem apiLines_grouped_by_kind_sorted (sdk_cache : SdkCache) :
    apiLines sdk_cache =
      sdk_cache.get_functions.map funEntry ++ sdk_cache.get_variables.map varEntry
    ∧ (sdk_cache.get_functions.map FunctionDef.name).Sorted (fun a b => strLe a b = true)
    ∧ (sdk_cache.get_variables.map VariableDef.name).Sorted (fun a b => strLe a b = true)
    ∧ apiLines cacheBarFoo =
        ["API_METHOD(bar, void, (void))", "API_METHOD(foo, int, (int))"] := by
  refine ⟨rfl, ?_, ?_, by decide⟩
  · exact List.pairwise_map.mpr (sortByKey_sorted FunctionDef.name _)
  · exact List.pairwise_map.mpr (sortByKey_sorted VariableDef.name _)

/-- C2: the emission is, in order, one `#include` line per header of the
cache, then exactly one version-constant line whose value is
`Version.as_int`, then the symbol-table literal. -/
theorem gen_sdk_data_layout (sdk_cache : SdkCache) :
    gen_sdk_data sdk_cache =
      sdk_cache.get_headers.map inclLine
        ++ ["const int elf_api_version = " ++ toString sdk_cache.version.as_int ++ ";"]
        ++ ["static constexpr auto elf_api_table = sort(create_array_t<sym_entry>(",
            pyJoin ",\n" (apiLines sdk_cache), "));"]
    ∧ (gen_sdk_data sdk_cache).count
        ("const int elf_api_version = " ++ toString sdk_cache.version.as_int ++ ";") = 1 := by
  constructor
  · simp [gen_sdk_data, List.append_assoc]
  · have hvh : ("const int elf_api_version = " ++ toString sdk_cache.version.as_int
        ++ ";").data.head? = some 'c' := vline_head _
    simp only [gen_sdk_data]
    rw [List.count_append, List.count_append, List.count_append, List.count_append]
    have h₁ : List.count
        ("const int elf_api_version = " ++ toString sdk_cache.version.as_int ++ ";")
        (sdk_cache.get_headers.map inclLine) = 0 := by
      apply List.count_eq_zero.mpr
      intro hmem
      rcases List.mem_map.mp hmem with ⟨hd, _, heq⟩
      have hh := inclLine_head hd
      rw [heq, hvh] at hh
      exact absurd hh (by decide)
    have h₂ : List.count
        ("const int elf_api_version = " ++ toString sdk_cache.version.as_int ++ ";")
        ["static constexpr auto elf_api_table = sort(create_array_t<sym_entry>("] = 0 := by
      apply List.count_eq_zero.mpr
      intro hmem
      have heq := List.mem_singleton.mp hmem
      rw [heq] at hvh
      exact absurd hvh (by decide)
    have h₃ : List.count
        ("const int elf_api_version = " ++ toString sdk_cache.version.as_int ++ ";")
        [pyJoin ",\n" (apiLines sdk_cache)] = 0 := by
      apply List.count_eq_zero.mpr
      intro hmem
      have heq := List.mem_singleton.mp hmem
      rcases pyJoin_head_all ",\n" 'A' (apiLines sdk_cache) (apiLines_head sdk_cache)
        with hj | hj
      · rw [heq, hj] at hvh
        exact absurd hvh (by decide)
      · rw [heq, hj] at hvh
        exact absurd hvh (by decide)
    have h₄ : List.count
        ("const int elf_api_version = " ++ toString sdk_cache.version.as_int ++ ";")
        ["));"] = 0 := by
      apply List.count_eq_zero.mpr
      intro hmem
      have heq := List.mem_singleton.mp hmem
      rw [heq] at hvh
      exact absurd hvh (by decide)
    rw [h₁, h₂, h₃, h₄]
    simp

/-- C6: the emission is a deterministic pure function of the cache
contents: two caches whose headers, functions and variables agree as
unordered collections (with the snapshot invariant of duplicate-free
names) and whose versions agree produce byte-identical output. -/
theorem gen_sdk_data_deterministic (c₁ c₂ : SdkCache)
    (hf : c₁.snapshot.functions.Perm c₂.snapshot.functions)
    (hv : c₁.snapshot.variables_.Perm c₂.snapshot.variables_)
    (hh : c₁.snapshot.headers.Perm c₂.snapshot.headers)
    (hver : c₁.version = c₂.version)
    (hsym : c₁.snapshot.symbolNames.Nodup)
    (hhdr : (c₁.snapshot.headers.map HeaderDef.name).Nodup) :
    gen_sdk_data c₁ = gen_sdk_data c₂ := by
  have hfn : (c₁.snapshot.functions.map FunctionDef.name).Nodup :=
    hsym.of_append_left
  have hvn : (c₁.snapshot.variables_.map VariableDef.name).Nodup :=
    hsym.of_append_right
  have e₁ : c₁.get_functions = c₂.get_functions :=
    sortByKey_eq_of_perm FunctionDef.name hf hfn
  have e₂ : c₁.get_variables = c₂.get_variables :=
    sortByKey_eq_of_perm VariableDef.name hv hvn
  have e₃ : c₁.get_headers = c₂.get_headers :=
    sortByKey_eq_of_perm HeaderDef.name hh hhdr
  simp [gen_sdk_data, apiLines, e₁, e₂, e₃, hver]

/-- C6 witness: two caches listing the same contents in different orders
produce identical output. -/
theorem gen_sdk_data_deterministic_witness :
    cacheDetA.snapshot.functions.Perm cacheDetB.snapshot.functions
    ∧ cacheDetA.snapshot.headers.Perm cacheDetB.snapshot.headers
    ∧ cacheDetA.snapshot.symbolNames.Nodup
    ∧ gen_sdk_data cacheDetA = gen_sdk_data cacheDetB :=
  ⟨by decide, by decide, by decide,
    gen_sdk_data_deterministic cacheDetA cacheDetB (by decide) (by decide) (by decide)
      rfl (by decide) (by decide)⟩

/-- C8: the table carries exactly one entry per symbol, its form decided
exhaustively by the symbol's kind: a line belongs to the table iff it is
the `API_METHOD(name, returns, (params))` entry of one of the cache's
functions or the `API_VARIABLE(name, type)` entry of one of its
variables, and the number of lines is the number of functions plus the
number of variables. -/
theorem apiLines_one_entry_per_symbol (sdk_cache : SdkCache) :
    (apiLines sdk_cache).length =
      sdk_cache.snapshot.functions.length + sdk_cache.snapshot.variables_.length
    ∧ ∀ line, line ∈ apiLines sdk_cache ↔
        ((∃ f ∈ sdk_cache.snapshot.functions, line = funEntry f)
          ∨ (∃ v ∈ sdk_cache.snapshot.variables_, line = varEntry v)) := by
  constructor
  · simp [apiLines, SdkCache.get_functions, SdkCache.get_variables,
      (sortByKey_perm FunctionDef.name sdk_cache.snapshot.functions).length_eq,
      (sortByKey_perm VariableDef.name sdk_cache.snapshot.variables_).length_eq]
  · intro line
    simp only [apiLines, List.mem_append, List.mem_map, SdkCache.get_functions,
      SdkCache.get_variables, mem_sortByKey]
    constructor
    · rintro (⟨f, hf, rfl⟩ | ⟨v, hv, rfl⟩)
      · exact Or.inl ⟨f, hf, rfl⟩
      · exact Or.inr ⟨v, hv, rfl⟩
    · rintro (⟨f, hf, rfl⟩ | ⟨v, hv, rfl⟩)
      · exact Or.inl ⟨f, hf, rfl⟩
      · exact Or.inr ⟨v, hv, rfl⟩

/-- C9: in `_generate_sdk_meta`, a firmware include directory is added to
the filtered SDK paths iff its (normalized relative) path occurs as a
substring of the comma-joined, single-quoted header-directory string —
substring containment, not exact or path-prefix matching: the directory
`b/c` is not a header directory, yet it is included because its path is a
substring of the header directory `ab/cd`'s quoted form. -/
theorem generate_sdk_meta_substring_containment (target_sdk_dir_name : String)
    (header_dirs full_fw_paths : List String) (dir : String) :
    ((target_sdk_dir_name ++ "/" ++ dir) ∈
        (generate_sdk_meta_filtered_paths target_sdk_dir_name header_dirs
          full_fw_paths).tail ↔
      (dir ∈ full_fw_paths ∧ pyIn dir (joinQuoted header_dirs) = true))
    ∧ pyIn "b/c" (joinQuoted ["ab/cd"]) = true
    ∧ ("b/c" : String) ∉ (["ab/cd"] : List String)
    ∧ generate_sdk_meta_filtered_paths "sdk" ["ab/cd"] ["b/c"] = ["sdk", "sdk/b/c"] := by
  refine ⟨?_, by decide, by decide, by decide⟩
  constructor
  · intro hmem
    simp only [generate_sdk_meta_filtered_paths, List.tail_cons] at hmem
    rcases List.mem_map.mp hmem with ⟨d, hd, heq⟩
    have hdd : d = dir := str_append_left_cancel heq
    subst hdd
    exact ⟨(List.mem_filter.mp hd).1, (List.mem_filter.mp hd).2⟩
  · intro h
    simp only [generate_sdk_meta_filtered_paths, List.tail_cons]
    exact List.mem_map_of_mem _ (List.mem_filter.mpr ⟨h.1, h.2⟩)

end FbtSdk
